import Mathlib

/-!
Verification of the passwordless email-link sign-in engine
(`auth/email_link/link_verify.go`, the `Status` handler, and the SQL DDL).

Shallow embedding conventions:
* timestamps and BIGINT columns are `Int`; `time.Now()` is passed in as a
  `now : Int` parameter (the two `time.Now()` calls inside one
  `verifySignIn` invocation are modelled as the same instant);
* nullable columns are `Option _`; the Go string fields scan SQL NULL as "";
* `users.JSON` metadata is modelled as a flat association list with opaque
  string values (the claims under verification do not depend on nested
  structure);
* storage is the single `email_link_sign_ins` row addressed by the
  operation's `(email, device_unique_id)` key, the `account_metadata` table
  and the single `sign_ins_per_ip` row; a conditional UPDATE whose WHERE
  clause fails leaves the state unchanged (zero rows affected);
* Go `nil`-pointer dereference is an explicit `panicked` outcome.
-/

namespace Eskimo

/-- Flat JSON object: association list from claim name to opaque value.
Lookup takes the first binding. -/
abbrev JSON := List (String × String)

def jsonLookup (j : JSON) (k : String) : Option String :=
  (j.find? (fun kv => kv.1 == k)).map (·.2)

/-- Set key `k` to `v`, replacing an existing binding (keeps list order for
existing keys, appends new keys). -/
def jsonSet (j : JSON) (k : String) (v : String) : JSON :=
  if (j.find? (fun kv => kv.1 == k)).isSome then
    j.map (fun kv => if kv.1 == k then (kv.1, v) else kv)
  else
    j ++ [(k, v)]

/-- Claim-name constants from `wintr/auth`. The concrete strings are opaque
to every property proved here; only their distinctness could matter. -/
def iceIDClaim : String := "iceId"

def registeredWithProviderClaim : String := "registeredWithProvider"

def firebaseIDClaim : String := "firebaseId"

def providerFirebase : String := "firebase"

/-- The `iceIDPrefix` constant marking native ice identities. -/
def iceIDPrefixVal : String := "ice_"

/-- `mergo.Merge(&dst, src, mergo.WithOverride)` on flat string maps:
every non-empty value of `src` overrides the binding in `dst`; empty `src`
values are skipped (mergo's default empty-value rule). -/
def mergoMergeOverride (dst src : JSON) : JSON :=
  src.foldl (fun acc kv => if kv.2 ≠ "" then jsonSet acc kv.1 kv.2 else acc) dst

/-- One row of `email_link_sign_ins` as the Go `emailLinkSignIn` struct sees
it. `issued_token_seq`, `previously_issued_token_seq` and
`confirmation_code_wrong_attempts_count` are `BIGINT ... NOT NULL` in the
DDL, hence plain `Int`; `confirmation_code` is scanned into a Go `string`
(NULL becomes ""). -/
structure EmailLinkSignIn where
  createdAt : Int
  tokenIssuedAt : Option Int
  blockedUntil : Option Int
  emailConfirmedAt : Option Int
  issuedTokenSeq : Int
  previouslyIssuedTokenSeq : Int
  confirmationCodeWrongAttemptsCount : Int
  email : String
  confirmationCode : String
  otp : String
  userID : Option String
  phoneNumberToEmailMigrationUserID : Option String
  deviceUniqueID : String
  metadata : Option JSON
  deriving DecidableEq, Repr

/-- The Go `loginID` primary-key pair. -/
structure LoginID where
  email : String
  deviceUniqueID : String
  deriving DecidableEq, Repr

/-- Relevant fields of the engine configuration. -/
structure Config where
  maxWrongAttemptsCount : Int
  blockDuration : Int
  deriving DecidableEq, Repr

/-- The storage state an operation can touch: the single
`email_link_sign_ins` row for the `(email, device_unique_id)` under
operation, the `account_metadata` table, and the `login_attempts` value of
the single `sign_ins_per_ip` row in play. -/
structure Db where
  row : EmailLinkSignIn
  accountMetadata : List (String × JSON)
  ipLoginAttempts : Int
  deriving DecidableEq, Repr

deriving instance DecidableEq for Except

/-- Error kinds surfaced by the engine (`errors.go` sentinels plus a wrapped
generic storage failure). -/
inductive AuthErr where
  | noConfirmationRequired
  | noPendingLoginSession
  | statusNotVerified
  | confirmationCodeWrong
  | confirmationCodeAttemptsExceeded
  | storage (msg : String)
  deriving DecidableEq, Repr

/-- The metadata to upsert, built by `finishAuthProcess` before the SQL:
start from `{IceIDClaim: userID}`, back-fill `RegisteredWithProviderClaim =
ProviderFirebase` only when absent from `md` while a Firebase id claim is
present and neither it nor `userID` carries the native-id prefix, then
`mergo.Merge(..., md, WithOverride)`. -/
def buildMdToUpdate (userID : String) (md : Option JSON) : JSON :=
  let md0 := md.getD []
  let base : JSON := [(iceIDClaim, userID)]
  let base :=
    if (jsonLookup md0 registeredWithProviderClaim).isSome then base
    else
      match jsonLookup md0 firebaseIDClaim with
      | some firebaseID =>
        if ¬ firebaseID.startsWith iceIDPrefixVal ∧ ¬ userID.startsWith iceIDPrefixVal then
          jsonSet base registeredWithProviderClaim providerFirebase
        else base
      | none => base
  mergoMergeOverride base md0

/-- The `metadata_update` CTE: `INSERT ... ON CONFLICT(user_id) DO UPDATE
SET metadata = EXCLUDED.metadata WHERE account_metadata.metadata !=
EXCLUDED.metadata`. -/
def metadataUpsert (tbl : List (String × JSON)) (userID : String) (md : JSON) :
    List (String × JSON) :=
  if (tbl.find? (fun kv => kv.1 == userID)).isSome then
    tbl.map (fun kv => if kv.1 == userID then (kv.1, md) else kv)
  else
    tbl ++ [(userID, md)]

/-- `finishAuthProcess`. The single statement is a data-modifying CTE
(the metadata upsert, which Postgres executes once regardless of how many
rows the outer UPDATE matches) around the conditional UPDATE of the
sign-in row. Postgres SET expressions read the pre-update row, so
`issued_token_seq = COALESCE(issued_token_seq, 0) + 1` and
`previously_issued_token_seq = COALESCE(issued_token_seq, 0) + 1` both
assign old-value-plus-one; `COALESCE` is the identity because the column is
`NOT NULL` in the DDL. Zero rows affected makes `storage.ExecOne` return
`ErrNotFound`, which the Go code maps to `ErrNoConfirmationRequired`;
any other storage failure is wrapped generically (`AuthErr.storage`). -/
def finishAuthProcess (db : Db) (now : Int) (id : LoginID) (userID : String)
    (issuedTokenSeq : Int) (emailConfirmed : Bool) (md : Option JSON) :
    Db × Except AuthErr Int :=
  let mdToUpdate := buildMdToUpdate userID md
  let db1 := { db with accountMetadata := metadataUpsert db.accountMetadata userID mdToUpdate }
  let r := db.row
  if r.email = id.email ∧ r.deviceUniqueID = id.deviceUniqueID ∧
      r.issuedTokenSeq = issuedTokenSeq then
    let newSeq := r.issuedTokenSeq + 1
    let r' := { r with
      tokenIssuedAt := some now
      userID := some userID
      emailConfirmedAt := if emailConfirmed then some now else none
      phoneNumberToEmailMigrationUserID := none
      issuedTokenSeq := newSeq
      previouslyIssuedTokenSeq := newSeq }
    ({ db1 with row := r' }, Except.ok newSeq)
  else
    (db1, Except.error AuthErr.noConfirmationRequired)

/-- Which Go nil-pointer dereference fired. -/
inductive PanicKind where
  | nilBlockedUntil
  | nilUserID
  deriving DecidableEq, Repr

/-- Result of `verifySignIn`: success, an aggregated `multierror` list, or a
Go panic; each carries the storage state after the call. -/
inductive VerifyResult where
  | ok (db : Db)
  | errs (l : List AuthErr) (db : Db)
  | panicked (k : PanicKind) (db : Db)
  deriving DecidableEq, Repr

def VerifyResult.isOk : VerifyResult → Bool
  | .ok _ => true
  | _ => false

/-- The storage state a verification outcome carries. -/
def VerifyResult.state : VerifyResult → Db
  | .ok db => db
  | .errs _ db => db
  | .panicked _ db => db

/-- `increaseWrongConfirmationCodeAttemptsCount`: one UPDATE keyed on
`(email, device_unique_id)` that increments the wrong-attempt counter and,
when `shouldBeBlocked`, also sets `blocked_until = now + blockDuration` in
the same write. `storage.Exec` ignores the affected-row count, so a
non-matching key silently changes nothing. -/
def increaseWrongConfirmationCodeAttemptsCount (cfg : Config) (db : Db) (now : Int)
    (id : LoginID) (shouldBeBlocked : Bool) : Db :=
  let r := db.row
  if r.email = id.email ∧ r.deviceUniqueID = id.deviceUniqueID then
    { db with row := { r with
        confirmationCodeWrongAttemptsCount := r.confirmationCodeWrongAttemptsCount + 1
        blockedUntil := if shouldBeBlocked then some (now + cfg.blockDuration) else r.blockedUntil } }
  else db

/-- `verifySignIn`, checking the presented code against the fetched snapshot
`els` and writing through `db`. Control flow follows the Go source: if the
wrong-attempt budget is spent and the stored block window fits
(`blockedUntil < now+blockDuration` and `blockedUntil > createdAt`, both
strict), return only `AttemptsExceeded` with no write; if the budget is
spent but the window does not fit, a fresh block is due, so fall into the
wrong-code branch regardless of the presented code, aggregating
`AttemptsExceeded` before `WrongCode`. A nil `blockedUntil` with the budget
spent is dereferenced on the Go side before its nil test runs, hence
`panicked`. -/
def verifySignIn (cfg : Config) (now : Int) (db : Db) (els : EmailLinkSignIn)
    (id : LoginID) (confirmationCode : String) : VerifyResult :=
  if cfg.maxWrongAttemptsCount ≤ els.confirmationCodeWrongAttemptsCount then
    match els.blockedUntil with
    | none => .panicked .nilBlockedUntil db
    | some blockedUntil =>
      if blockedUntil < now + cfg.blockDuration ∧ els.createdAt < blockedUntil then
        .errs [AuthErr.confirmationCodeAttemptsExceeded] db
      else
        let db1 := increaseWrongConfirmationCodeAttemptsCount cfg db now id true
        .errs [AuthErr.confirmationCodeAttemptsExceeded, AuthErr.confirmationCodeWrong] db1
  else
    if els.confirmationCode ≠ confirmationCode then
      let shouldBeBlocked :=
        cfg.maxWrongAttemptsCount ≤ els.confirmationCodeWrongAttemptsCount + 1
      let db1 := increaseWrongConfirmationCodeAttemptsCount cfg db now id shouldBeBlocked
      .errs [AuthErr.confirmationCodeWrong] db1
    else
      .ok db

/-- `GREATEST(login_attempts - 1, 0)`: the rate-limiter refund issued by
`resetLoginSession`'s data-modifying CTE. -/
def ipRefund (attempts : Int) : Int := max (attempts - 1) 0

/-- `resetLoginSession` (the `link_verify.go` version): when an
`(ip, loginSessionNumber)` pair was supplied, a data-modifying CTE
decrements that row's `login_attempts` to `GREATEST(login_attempts - 1, 0)`
(it executes even if the outer UPDATE matches nothing); the outer UPDATE
rewrites `confirmation_code` to `els.UserID` (the terminal marker; a nil
pointer writes SQL NULL, scanned back as "") keyed on the record's key, the
previous code and `issued_token_seq = els.IssuedTokenSeq + 1`. -/
def resetLoginSession (db : Db) (id : LoginID) (els : EmailLinkSignIn)
    (prevConfirmationCode clientIP : String) (loginSessionNumber : Int) : Db :=
  let db1 :=
    if clientIP ≠ "" ∧ 0 < loginSessionNumber then
      { db with ipLoginAttempts := ipRefund db.ipLoginAttempts }
    else db
  let r := db1.row
  if r.email = id.email ∧ r.deviceUniqueID = id.deviceUniqueID ∧
      r.confirmationCode = prevConfirmationCode ∧
      r.issuedTokenSeq = els.issuedTokenSeq + 1 then
    { db1 with row := { r with confirmationCode := els.userID.getD "" } }
  else db1

/-- Success/failure outcomes of the email-modification coordinator calls
(`handleEmailModification`, `resetEmailModification`,
`resetFirebaseEmailModification`). Modelled from the spec: these live in
files not shown here (§4.6); only their success/failure outcome reaches the
error-aggregation logic under verification, so each call's result is a
parameter (`none` = success). -/
structure EmailModOracle where
  handleEmailModification : Option AuthErr
  resetEmailModification : Option AuthErr
  resetFirebaseEmailModification : Option AuthErr
  deriving DecidableEq, Repr

/-- Result of the inner `signIn`. -/
inductive SignInResult where
  | ok (emailConfirmed : Bool) (issuedTokenSeq : Int) (db : Db)
  | errs (l : List AuthErr) (db : Db)
  | panicked (k : PanicKind) (db : Db)
  deriving DecidableEq, Repr

/-- Tail of `signIn` from the `finishAuthProcess` call on: dereferences
`*els.UserID` (panic if nil), then on finalize failure builds the
`multierror` aggregate — when `oldEmail` is set, first the
email-modification reversion result, then the identity-provider reversion
result (`errors.Wrapf` of a nil error is nil and `multierror.Append` skips
nils), and always the finalize error last. -/
def signInFinish (o : EmailModOracle) (now : Int) (db : Db) (els : EmailLinkSignIn)
    (id : LoginID) (oldEmail : String) (emailConfirmed : Bool) : SignInResult :=
  match els.userID with
  | none => .panicked .nilUserID db
  | some userID =>
    let fin := finishAuthProcess db now id userID els.issuedTokenSeq emailConfirmed els.metadata
    match fin.2 with
    | Except.ok seq => .ok emailConfirmed seq fin.1
    | Except.error fErr =>
      let compensations : List AuthErr :=
        if oldEmail ≠ "" then
          [o.resetEmailModification, o.resetFirebaseEmailModification].filterMap (fun e => e)
        else []
      .errs (compensations ++ [fErr]) fin.1

/-- The inner `signIn`: terminal-marker guard
(`els.UserID != nil && els.ConfirmationCode == *els.UserID`), verification,
the email-modification step when `oldEmail` is set or the record carries a
non-empty phone-to-email migration marker (then `emailConfirmed := oldEmail
!= ""` and the in-memory record's email is rewritten), then finalize. -/
def signIn (cfg : Config) (o : EmailModOracle) (now : Int) (db : Db)
    (els : EmailLinkSignIn) (id : LoginID)
    (oldEmail confirmationCode : String) : SignInResult :=
  if els.userID = some els.confirmationCode then
    .errs [AuthErr.noPendingLoginSession] db
  else
    match verifySignIn cfg now db els id confirmationCode with
    | .panicked k db1 => .panicked k db1
    | .errs l db1 => .errs l db1
    | .ok db1 =>
      if oldEmail ≠ "" ∨ els.phoneNumberToEmailMigrationUserID.getD "" ≠ "" then
        match o.handleEmailModification with
        | some e => .errs [e] db1
        | none =>
          signInFinish o now db1 { els with email := id.email } id oldEmail (oldEmail ≠ "")
      else
        signInFinish o now db1 els id oldEmail false

/-- Modelled from the spec: `getConfirmed(email, deviceID, code) ->
SignInRecord | fails(NotFound)` (§4.2) — the fetch helper
`getConfirmedEmailLinkSignIn` is in a file not shown here. The store
corroborates the presented code against the stored `confirmationCode` of
the `(email, deviceUniqueID)` row; no match is `NotFound`. -/
def getConfirmedEmailLinkSignIn (db : Db) (id : LoginID) (confirmationCode : String) :
    Option EmailLinkSignIn :=
  if db.row.email = id.email ∧ db.row.deviceUniqueID = id.deviceUniqueID ∧
      db.row.confirmationCode = confirmationCode then
    some db.row
  else none

/-- Result of `Status`: minted tokens or a single error, each with the
post-call storage state. -/
inductive StatusResult where
  | tokens (emailConfirmed : Bool) (db : Db)
  | errs (e : AuthErr) (db : Db)
  deriving DecidableEq, Repr

/-- `resetLoginSession` (the `Status` file's version): rewrite
`confirmation_code` to `els.UserID`, keyed on the record's key, `otp`, the
previous confirmation code and the unchanged `issued_token_seq`. -/
def statusResetLoginSession (db : Db) (id : LoginID) (els : EmailLinkSignIn)
    (prevConfirmationCode : String) : Db :=
  let r := db.row
  if r.email = id.email ∧ r.deviceUniqueID = id.deviceUniqueID ∧
      r.otp = els.otp ∧ r.confirmationCode = prevConfirmationCode ∧
      r.issuedTokenSeq = els.issuedTokenSeq then
    { db with row := { r with confirmationCode := els.userID.getD "" } }
  else db

/-- `Status` after token parsing: fetch the confirmed record (NotFound maps
to `NoPendingLoginSession`), require the otp to have been promoted to the
resolved user id (`els.UserID == nil || els.OTP != *els.UserID` gives
`StatusNotVerified`), reject the terminal marker
(`els.ConfirmationCode == *els.UserID` gives `NoPendingLoginSession`),
then mint tokens and rotate the code. -/
def status (db : Db) (id : LoginID) (tokenConfirmationCode : String) : StatusResult :=
  match getConfirmedEmailLinkSignIn db id tokenConfirmationCode with
  | none => .errs AuthErr.noPendingLoginSession db
  | some els =>
    match els.userID with
    | none => .errs AuthErr.statusNotVerified db
    | some userID =>
      if els.otp ≠ userID then .errs AuthErr.statusNotVerified db
      else if els.confirmationCode = userID then .errs AuthErr.noPendingLoginSession db
      else
        .tokens els.emailConfirmedAt.isSome (statusResetLoginSession db id els tokenConfirmationCode)

/-- Modelled from the spec: `admit(ip, loginSessionNumber)` (§4.7) — the
link-issuance increment is in a file not shown here. It is enforced by the
DDL check constraint `login_attempts <= 10`: an increment that would
violate the constraint fails and leaves the row unchanged. -/
def ipAdmitResult (attempts : Int) : Except Unit Int :=
  if attempts + 1 ≤ 10 then Except.ok (attempts + 1) else Except.error ()

/-- One rate-limiter operation on an `sign_ins_per_ip` row. -/
inductive IPOp where
  | admitOp
  | refund
  deriving DecidableEq, Repr

/-- Effect of one rate-limiter operation on the stored `login_attempts`
value (a failed admit changes nothing). -/
def ipApply (attempts : Int) (op : IPOp) : Int :=
  match op with
  | .admitOp =>
    match ipAdmitResult attempts with
    | Except.ok a => a
    | Except.error _ => attempts
  | .refund => ipRefund attempts

/-- Run a sequence of rate-limiter operations. -/
def ipRun (attempts : Int) (ops : List IPOp) : Int := ops.foldl ipApply attempts

/-- One storage-mutating operation of the shown sign-in engine code,
with the caller-supplied arguments (`els` is the caller's fetched snapshot,
possibly stale). -/
inductive Op where
  | verify (now : Int) (els : EmailLinkSignIn) (code : String)
  | finish (now : Int) (userID : String) (seq : Int) (emailConfirmed : Bool) (md : Option JSON)
  | resetLink (els : EmailLinkSignIn) (prevCode clientIP : String) (loginSessionNumber : Int)
  | resetStatus (els : EmailLinkSignIn) (prevCode : String)

/-- State transition of one operation (the storage effect only). -/
def applyOp (cfg : Config) (id : LoginID) (db : Db) : Op → Db
  | .verify now els code => (verifySignIn cfg now db els id code).state
  | .finish now userID seq emailConfirmed md =>
    (finishAuthProcess db now id userID seq emailConfirmed md).1
  | .resetLink els prevCode clientIP loginSessionNumber =>
    resetLoginSession db id els prevCode clientIP loginSessionNumber
  | .resetStatus els prevCode => statusResetLoginSession db id els prevCode

/-- Run a sequence of engine operations. -/
def runOps (cfg : Config) (id : LoginID) (db : Db) (ops : List Op) : Db :=
  ops.foldl (applyOp cfg id) db

/-! ### Concrete fixtures used by witnesses and counterexamples -/

/-- A configuration with `maxWrongAttemptsCount = 3`, `blockDuration = 10`. -/
def exCfg : Config := { maxWrongAttemptsCount := 3, blockDuration := 10 }

/-- The key of the fixture row. -/
def exId : LoginID := { email := "alice@x.com", deviceUniqueID := "d1" }

/-- A pending sign-in row: code `"c1"`, resolved user `"u1"`,
`issuedTokenSeq = 5`, no wrong attempts, no block. -/
def exRow : EmailLinkSignIn where
  createdAt := 0
  tokenIssuedAt := none
  blockedUntil := none
  emailConfirmedAt := none
  issuedTokenSeq := 5
  previouslyIssuedTokenSeq := 4
  confirmationCodeWrongAttemptsCount := 0
  email := "alice@x.com"
  confirmationCode := "c1"
  otp := "o1"
  userID := some "u1"
  phoneNumberToEmailMigrationUserID := none
  deviceUniqueID := "d1"
  metadata := none

/-- Storage holding just the fixture row. -/
def exDb : Db := { row := exRow, accountMetadata := [], ipLoginAttempts := 0 }

/-- The fixture row with a previously confirmed email
(`emailConfirmedAt = some 7`). -/
def exRowConfirmed : EmailLinkSignIn := { exRow with emailConfirmedAt := some 7 }

/-- Storage holding the previously confirmed fixture row. -/
def exDbConfirmed : Db := { row := exRowConfirmed, accountMetadata := [], ipLoginAttempts := 0 }

/-- The fixture row one wrong attempt short of the `exCfg` threshold. -/
def exRowTwoWrong : EmailLinkSignIn := { exRow with confirmationCodeWrongAttemptsCount := 2 }

/-- Storage holding the almost-blocked fixture row. -/
def exDbTwoWrong : Db := { row := exRowTwoWrong, accountMetadata := [], ipLoginAttempts := 0 }

/-- The fixture row over budget with an installed block
(`wrongAttemptsCount = 3 = exCfg.maxWrongAttemptsCount`,
`blockedUntil = some 50`, `createdAt = 0`). -/
def exRowBlocked : EmailLinkSignIn :=
  { exRow with confirmationCodeWrongAttemptsCount := 3, blockedUntil := some 50 }

/-- Storage holding the blocked fixture row. -/
def exDbBlocked : Db := { row := exRowBlocked, accountMetadata := [], ipLoginAttempts := 0 }

/-- A consumed row: `confirmationCode` rewritten to the terminal marker
(`= userID = "u1"`), otp `"o1"` never promoted. -/
def exRowTerminal : EmailLinkSignIn := { exRow with confirmationCode := "u1" }

/-- Storage holding the consumed fixture row. -/
def exDbTerminal : Db := { row := exRowTerminal, accountMetadata := [], ipLoginAttempts := 0 }

/-- An oracle where the email-modification step succeeds and both
compensating reversions fail. -/
def exOracleFail : EmailModOracle where
  handleEmailModification := none
  resetEmailModification := some (AuthErr.storage "revert-email")
  resetFirebaseEmailModification := some (AuthErr.storage "revert-firebase")

/-- A store whose row has already advanced to `issuedTokenSeq = 7` while
the snapshot `exRow` still carries 5 — a finalize race. -/
def exDbRace : Db :=
  { row := { exRow with issuedTokenSeq := 7 }, accountMetadata := [], ipLoginAttempts := 0 }

/-- The fixture row before identity resolution: `userID = none` (the
`user_id` column is nullable) while a valid confirmation code is live. -/
def exRowNoUser : EmailLinkSignIn := { exRow with userID := none }

/-- Storage holding the unresolved fixture row. -/
def exDbNoUser : Db := { row := exRowNoUser, accountMetadata := [], ipLoginAttempts := 0 }

/-! ### Helper lemmas -/

theorem finishAuthProcess_matched (db : Db) (now : Int) (id : LoginID) (userID : String)
    (issuedTokenSeq : Int) (emailConfirmed : Bool) (md : Option JSON)
    (h : db.row.email = id.email ∧ db.row.deviceUniqueID = id.deviceUniqueID ∧
      db.row.issuedTokenSeq = issuedTokenSeq) :
    finishAuthProcess db now id userID issuedTokenSeq emailConfirmed md =
      ({ row := { db.row with
            tokenIssuedAt := some now
            userID := some userID
            emailConfirmedAt := if emailConfirmed then some now else none
            phoneNumberToEmailMigrationUserID := none
            issuedTokenSeq := db.row.issuedTokenSeq + 1
            previouslyIssuedTokenSeq := db.row.issuedTokenSeq + 1 },
          accountMetadata := metadataUpsert db.accountMetadata userID (buildMdToUpdate userID md),
          ipLoginAttempts := db.ipLoginAttempts },
        Except.ok (db.row.issuedTokenSeq + 1)) := by
  simp only [finishAuthProcess, if_pos h]

theorem finishAuthProcess_unmatched (db : Db) (now : Int) (id : LoginID) (userID : String)
    (issuedTokenSeq : Int) (emailConfirmed : Bool) (md : Option JSON)
    (h : ¬ (db.row.email = id.email ∧ db.row.deviceUniqueID = id.deviceUniqueID ∧
      db.row.issuedTokenSeq = issuedTokenSeq)) :
    finishAuthProcess db now id userID issuedTokenSeq emailConfirmed md =
      ({ db with
          accountMetadata := metadataUpsert db.accountMetadata userID (buildMdToUpdate userID md) },
        Except.error AuthErr.noConfirmationRequired) := by
  simp only [finishAuthProcess, if_neg h]

/-! ### Claim theorems -/

/-- **C1**: the conditional UPDATE in `finishAuthProcess` requires the
stored `issuedTokenSeq` to equal the caller's previously read value: a
success implies they matched; when the stored value differs, the call fails
with the race-lost error `ErrNoConfirmationRequired` and the sign-in row is
unchanged; and that error kind is distinct from every generic storage
failure. -/
theorem finishAuthProcess_race_lost (db : Db) (now : Int) (id : LoginID) (userID : String)
    (issuedTokenSeq : Int) (emailConfirmed : Bool) (md : Option JSON)
    (_hEmail : db.row.email = id.email)
    (_hDevice : db.row.deviceUniqueID = id.deviceUniqueID) :
    (∀ n, (finishAuthProcess db now id userID issuedTokenSeq emailConfirmed md).2 = Except.ok n →
      db.row.issuedTokenSeq = issuedTokenSeq) ∧
    (db.row.issuedTokenSeq ≠ issuedTokenSeq →
      (finishAuthProcess db now id userID issuedTokenSeq emailConfirmed md).2 =
        Except.error AuthErr.noConfirmationRequired ∧
      (finishAuthProcess db now id userID issuedTokenSeq emailConfirmed md).1.row = db.row) ∧
    (∀ msg, AuthErr.noConfirmationRequired ≠ AuthErr.storage msg) := by
  refine ⟨?_, ?_, fun msg h => AuthErr.noConfusion h⟩
  · intro n hn
    by_contra hne
    rw [finishAuthProcess_unmatched db now id userID issuedTokenSeq emailConfirmed md
      (fun hc => hne hc.2.2)] at hn
    cases hn
  · intro hne
    rw [finishAuthProcess_unmatched db now id userID issuedTokenSeq emailConfirmed md
      (fun hc => hne hc.2.2)]
    exact ⟨rfl, rfl⟩

/-- **C1 witness**: a concrete race — the stored row carries
`issuedTokenSeq = 5` while the caller read `4`. -/
theorem finishAuthProcess_race_lost_witness :
    (finishAuthProcess exDb 100 exId "u1" 4 false none).2 =
      Except.error AuthErr.noConfirmationRequired ∧
    (finishAuthProcess exDb 100 exId "u1" 4 false none).1.row = exDb.row :=
  (finishAuthProcess_race_lost exDb 100 exId "u1" 4 false none rfl rfl).2.1 (by decide)

/-- **C2 counterexample**: the claim says a successful finalize sets
`previouslyIssuedTokenSeq` to the pre-increment `issuedTokenSeq`. On the
fixture row with `issuedTokenSeq = 5`, the SQL (whose SET expressions all
read the pre-update row) stores `5 + 1 = 6` into
`previously_issued_token_seq`, not `5`. -/
theorem finishAuthProcess_prevSeq_counterexample :
    exDb.row.issuedTokenSeq = 5 ∧
    (finishAuthProcess exDb 100 exId "u1" 5 false none).2 = Except.ok 6 ∧
    (finishAuthProcess exDb 100 exId "u1" 5 false none).1.row.previouslyIssuedTokenSeq ≠ 5 := by
  decide

/-- **C2 (amended)**: a successful finalize advances `issuedTokenSeq` to its
prior value plus 1, sets `previouslyIssuedTokenSeq` to that same new value
(prior plus 1, not the prior value), and returns the new `issuedTokenSeq`. -/
theorem finishAuthProcess_success_seqs (db : Db) (now : Int) (id : LoginID) (userID : String)
    (emailConfirmed : Bool) (md : Option JSON)
    (hEmail : db.row.email = id.email)
    (hDevice : db.row.deviceUniqueID = id.deviceUniqueID) :
    (finishAuthProcess db now id userID db.row.issuedTokenSeq emailConfirmed md).2 =
      Except.ok (db.row.issuedTokenSeq + 1) ∧
    (finishAuthProcess db now id userID db.row.issuedTokenSeq emailConfirmed md).1.row.issuedTokenSeq =
      db.row.issuedTokenSeq + 1 ∧
    (finishAuthProcess db now id userID db.row.issuedTokenSeq
        emailConfirmed md).1.row.previouslyIssuedTokenSeq =
      db.row.issuedTokenSeq + 1 := by
  rw [finishAuthProcess_matched db now id userID db.row.issuedTokenSeq emailConfirmed md
    ⟨hEmail, hDevice, rfl⟩]
  exact ⟨rfl, rfl, rfl⟩

/-- **C2 (amended) witness**: on the fixture row (`issuedTokenSeq = 5`) the
finalize returns 6 and stores 6 into both sequence columns. -/
theorem finishAuthProcess_success_seqs_witness :
    (finishAuthProcess exDb 100 exId "u1" 5 false none).2 = Except.ok 6 ∧
    (finishAuthProcess exDb 100 exId "u1" 5 false none).1.row.issuedTokenSeq = 6 ∧
    (finishAuthProcess exDb 100 exId "u1" 5 false none).1.row.previouslyIssuedTokenSeq = 6 :=
  finishAuthProcess_success_seqs exDb 100 exId "u1" false none rfl rfl

/-- **C8 counterexample**: the claim says that with `emailConfirmed = false`
a pre-existing `emailConfirmedAt` is left unchanged. On the fixture row
carrying `emailConfirmedAt = some 7`, a successful finalize with
`emailConfirmed = false` writes SQL NULL into the column
(`email_confirmed_at = null`), clearing the prior value. -/
theorem finishAuthProcess_emailConfirmedAt_counterexample :
    exDbConfirmed.row.emailConfirmedAt = some 7 ∧
    (finishAuthProcess exDbConfirmed 100 exId "u1" 5 false none).2 = Except.ok 6 ∧
    (finishAuthProcess exDbConfirmed 100 exId "u1" 5 false none).1.row.emailConfirmedAt = none := by
  decide

/-- **C8 (amended)**: a successful finalize sets `emailConfirmedAt = now`
iff `emailConfirmed` is true; when `emailConfirmed` is false the column is
overwritten with NULL, so any pre-existing value is cleared rather than
left unchanged. -/
theorem finishAuthProcess_emailConfirmedAt (db : Db) (now : Int) (id : LoginID) (userID : String)
    (emailConfirmed : Bool) (md : Option JSON)
    (hEmail : db.row.email = id.email)
    (hDevice : db.row.deviceUniqueID = id.deviceUniqueID) :
    (finishAuthProcess db now id userID db.row.issuedTokenSeq
        emailConfirmed md).1.row.emailConfirmedAt =
      (if emailConfirmed then some now else none) := by
  rw [finishAuthProcess_matched db now id userID db.row.issuedTokenSeq emailConfirmed md
    ⟨hEmail, hDevice, rfl⟩]

/-- **C8 (amended) witness**: on the previously confirmed fixture row,
finalize with `emailConfirmed = false` leaves the column NULL. -/
theorem finishAuthProcess_emailConfirmedAt_witness :
    (finishAuthProcess exDbConfirmed 100 exId "u1" 5 false none).1.row.emailConfirmedAt =
      (if false then some (100 : Int) else none) :=
  finishAuthProcess_emailConfirmedAt exDbConfirmed 100 exId "u1" false none rfl rfl

theorem verifySignIn_activeBlock (cfg : Config) (now : Int) (db : Db) (els : EmailLinkSignIn)
    (id : LoginID) (code : String) (b : Int)
    (hCount : cfg.maxWrongAttemptsCount ≤ els.confirmationCodeWrongAttemptsCount)
    (hBlocked : els.blockedUntil = some b)
    (hAfter : els.createdAt < b)
    (hBefore : b < now + cfg.blockDuration) :
    verifySignIn cfg now db els id code =
      .errs [AuthErr.confirmationCodeAttemptsExceeded] db := by
  simp only [verifySignIn, if_pos hCount, hBlocked, if_pos (⟨hBefore, hAfter⟩ : _ ∧ _)]

/-- **C5**: a record over the wrong-attempt budget whose non-null
`blockedUntil` lies strictly after `createdAt` and strictly before
`now + blockDuration` is rejected with `AttemptsExceeded` alone, with no
write to the record, whatever code is presented. -/
theorem verifySignIn_activeBlock_idempotent (cfg : Config) (now : Int) (db : Db)
    (id : LoginID) (code : String) (b : Int)
    (hCount : cfg.maxWrongAttemptsCount ≤ db.row.confirmationCodeWrongAttemptsCount)
    (hBlocked : db.row.blockedUntil = some b)
    (hAfter : db.row.createdAt < b)
    (hBefore : b < now + cfg.blockDuration) :
    verifySignIn cfg now db db.row id code =
      .errs [AuthErr.confirmationCodeAttemptsExceeded] db :=
  verifySignIn_activeBlock cfg now db db.row id code b hCount hBlocked hAfter hBefore

/-- **C5 witness**: the blocked fixture row (`count = 3 ≥ 3`,
`blockedUntil = 50` with `0 < 50 < 100 + 10`) presented with its own
correct code is rejected with `AttemptsExceeded` and the state kept. -/
theorem verifySignIn_activeBlock_idempotent_witness :
    verifySignIn exCfg 100 exDbBlocked exDbBlocked.row exId "c1" =
      .errs [AuthErr.confirmationCodeAttemptsExceeded] exDbBlocked :=
  verifySignIn_activeBlock_idempotent exCfg 100 exDbBlocked exId "c1" 50
    (by decide) (by decide) (by decide) (by decide)

/-- **C4 counterexample**: the claim says the error on the final allowed
wrong attempt contains both `WrongCode` and `AttemptsExceeded`. With
`maxAttempts = 3` and a record at 2 wrong attempts, presenting a wrong code
increments the counter and installs the block, but the aggregated error is
`WrongCode` alone — `AttemptsExceeded` is absent. -/
theorem verifySignIn_lastAttempt_counterexample :
    exCfg.maxWrongAttemptsCount = 3 ∧
    exDbTwoWrong.row.confirmationCodeWrongAttemptsCount = 2 ∧
    verifySignIn exCfg 100 exDbTwoWrong exDbTwoWrong.row exId "wrong" =
      .errs [AuthErr.confirmationCodeWrong]
        { exDbTwoWrong with row := { exRowTwoWrong with
            confirmationCodeWrongAttemptsCount := 3,
            blockedUntil := some 110 } } ∧
    AuthErr.confirmationCodeAttemptsExceeded ∉ [AuthErr.confirmationCodeWrong] := by
  decide

/-- **C4 (amended)**: presenting a wrong code when `wrongAttemptsCount =
maxAttempts - 1` increments the counter and installs the block
(`blockedUntil = now + blockDuration`) in the same write, and the returned
error is `WrongCode` alone; `AttemptsExceeded` is only aggregated when the
budget was already exceeded before the call. -/
theorem verifySignIn_lastAttempt (cfg : Config) (now : Int) (db : Db) (id : LoginID)
    (code : String)
    (hCount : db.row.confirmationCodeWrongAttemptsCount + 1 = cfg.maxWrongAttemptsCount)
    (hWrong : db.row.confirmationCode ≠ code)
    (hEmail : db.row.email = id.email)
    (hDevice : db.row.deviceUniqueID = id.deviceUniqueID) :
    verifySignIn cfg now db db.row id code =
      .errs [AuthErr.confirmationCodeWrong]
        { db with row := { db.row with
            confirmationCodeWrongAttemptsCount := db.row.confirmationCodeWrongAttemptsCount + 1,
            blockedUntil := some (now + cfg.blockDuration) } } := by
  have hnot : ¬ cfg.maxWrongAttemptsCount ≤ db.row.confirmationCodeWrongAttemptsCount := by
    omega
  have hble : cfg.maxWrongAttemptsCount ≤ db.row.confirmationCodeWrongAttemptsCount + 1 := by
    omega
  simp only [verifySignIn, if_neg hnot, if_pos hWrong,
    increaseWrongConfirmationCodeAttemptsCount, if_pos (⟨hEmail, hDevice⟩ : _ ∧ _),
    decide_eq_true hble, if_true]

/-- **C4 (amended) witness**: the almost-blocked fixture row presented with
a wrong code. -/
theorem verifySignIn_lastAttempt_witness :
    verifySignIn exCfg 100 exDbTwoWrong exDbTwoWrong.row exId "wrong" =
      .errs [AuthErr.confirmationCodeWrong]
        { exDbTwoWrong with row := { exDbTwoWrong.row with
            confirmationCodeWrongAttemptsCount :=
              exDbTwoWrong.row.confirmationCodeWrongAttemptsCount + 1,
            blockedUntil := some (100 + exCfg.blockDuration) } } :=
  verifySignIn_lastAttempt exCfg 100 exDbTwoWrong exId "wrong" (by decide) (by decide) rfl rfl

theorem increase_count_mono (cfg : Config) (db : Db) (now : Int) (id : LoginID) (b : Bool) :
    db.row.confirmationCodeWrongAttemptsCount ≤
      (increaseWrongConfirmationCodeAttemptsCount cfg db now id
        b).row.confirmationCodeWrongAttemptsCount := by
  by_cases h : db.row.email = id.email ∧ db.row.deviceUniqueID = id.deviceUniqueID
  · simp only [increaseWrongConfirmationCodeAttemptsCount, if_pos h]
    show db.row.confirmationCodeWrongAttemptsCount ≤
      db.row.confirmationCodeWrongAttemptsCount + 1
    omega
  · simp only [increaseWrongConfirmationCodeAttemptsCount, if_neg h]
    exact le_refl _

theorem verifySignIn_state_count_mono (cfg : Config) (now : Int) (db : Db)
    (els : EmailLinkSignIn) (id : LoginID) (code : String) :
    db.row.confirmationCodeWrongAttemptsCount ≤
      (verifySignIn cfg now db els id code).state.row.confirmationCodeWrongAttemptsCount := by
  by_cases h1 : cfg.maxWrongAttemptsCount ≤ els.confirmationCodeWrongAttemptsCount
  · cases hbu : els.blockedUntil with
    | none =>
      simp only [verifySignIn, if_pos h1, hbu]
      exact le_refl _
    | some b =>
      by_cases hf : b < now + cfg.blockDuration ∧ els.createdAt < b
      · simp only [verifySignIn, if_pos h1, hbu, if_pos hf]
        exact le_refl _
      · simp only [verifySignIn, if_pos h1, hbu, if_neg hf]
        exact increase_count_mono cfg db now id true
  · by_cases h2 : els.confirmationCode ≠ code
    · simp only [verifySignIn, if_neg h1, if_pos h2]
      exact increase_count_mono cfg db now id _
    · simp only [verifySignIn, if_neg h1, if_neg h2]
      exact le_refl _

theorem finishAuthProcess_count_eq (db : Db) (now : Int) (id : LoginID) (userID : String)
    (seq : Int) (emailConfirmed : Bool) (md : Option JSON) :
    (finishAuthProcess db now id userID seq
      emailConfirmed md).1.row.confirmationCodeWrongAttemptsCount =
      db.row.confirmationCodeWrongAttemptsCount := by
  by_cases h : db.row.email = id.email ∧ db.row.deviceUniqueID = id.deviceUniqueID ∧
      db.row.issuedTokenSeq = seq
  · rw [finishAuthProcess_matched db now id userID seq emailConfirmed md h]
  · rw [finishAuthProcess_unmatched db now id userID seq emailConfirmed md h]

theorem resetLoginSession_count_eq (db : Db) (id : LoginID) (els : EmailLinkSignIn)
    (prevCode clientIP : String) (loginSessionNumber : Int) :
    (resetLoginSession db id els prevCode clientIP
      loginSessionNumber).row.confirmationCodeWrongAttemptsCount =
      db.row.confirmationCodeWrongAttemptsCount := by
  simp only [resetLoginSession]
  split <;> split <;> rfl

theorem statusResetLoginSession_count_eq (db : Db) (id : LoginID) (els : EmailLinkSignIn)
    (prevCode : String) :
    (statusResetLoginSession db id els prevCode).row.confirmationCodeWrongAttemptsCount =
      db.row.confirmationCodeWrongAttemptsCount := by
  simp only [statusResetLoginSession]
  split <;> rfl

theorem applyOp_count_mono (cfg : Config) (id : LoginID) (db : Db) (op : Op) :
    db.row.confirmationCodeWrongAttemptsCount ≤
      (applyOp cfg id db op).row.confirmationCodeWrongAttemptsCount := by
  cases op with
  | verify now els code => exact verifySignIn_state_count_mono cfg now db els id code
  | finish now userID seq emailConfirmed md =>
    exact le_of_eq (finishAuthProcess_count_eq db now id userID seq emailConfirmed md).symm
  | resetLink els prevCode clientIP loginSessionNumber =>
    exact le_of_eq (resetLoginSession_count_eq db id els prevCode clientIP loginSessionNumber).symm
  | resetStatus els prevCode =>
    exact le_of_eq (statusResetLoginSession_count_eq db id els prevCode).symm

theorem runOps_count_mono (cfg : Config) (id : LoginID) (ops : List Op) :
    ∀ db : Db, db.row.confirmationCodeWrongAttemptsCount ≤
      (runOps cfg id db ops).row.confirmationCodeWrongAttemptsCount := by
  induction ops with
  | nil => intro db; exact le_refl _
  | cons op ops ih =>
    intro db
    exact le_trans (applyOp_count_mono cfg id db op) (ih (applyOp cfg id db op))

theorem verifySignIn_not_ok_over_budget (cfg : Config) (now : Int) (db : Db)
    (els : EmailLinkSignIn) (id : LoginID) (code : String)
    (h : cfg.maxWrongAttemptsCount ≤ els.confirmationCodeWrongAttemptsCount) :
    (verifySignIn cfg now db els id code).isOk = false := by
  cases hbu : els.blockedUntil with
  | none =>
    simp only [verifySignIn, if_pos h, hbu]
    rfl
  | some b =>
    by_cases hf : b < now + cfg.blockDuration ∧ els.createdAt < b
    · simp only [verifySignIn, if_pos h, hbu, if_pos hf]
      rfl
    · simp only [verifySignIn, if_pos h, hbu, if_neg hf]
      rfl

/-- **C10**: once a record is over budget with a `blockedUntil` strictly
after `createdAt`, every `verifySignIn` whose `now + blockDuration` exceeds
`blockedUntil` — in particular whenever `blockedUntil` is already in the
past and the duration is positive — returns exactly `AttemptsExceeded`
without writing; no operation of the shown code ever decreases
`confirmationCodeWrongAttemptsCount`, so after any sequence of operations
the record stays over budget and a verification can never again succeed. -/
theorem blocked_record_never_recovers (cfg : Config) (id : LoginID) (db : Db) (b : Int)
    (hCount : cfg.maxWrongAttemptsCount ≤ db.row.confirmationCodeWrongAttemptsCount)
    (hBlocked : db.row.blockedUntil = some b)
    (hAfter : db.row.createdAt < b) :
    (∀ now code, b < now + cfg.blockDuration →
      verifySignIn cfg now db db.row id code =
        .errs [AuthErr.confirmationCodeAttemptsExceeded] db) ∧
    (∀ now code, b ≤ now → 0 < cfg.blockDuration →
      verifySignIn cfg now db db.row id code =
        .errs [AuthErr.confirmationCodeAttemptsExceeded] db) ∧
    (∀ ops : List Op, cfg.maxWrongAttemptsCount ≤
      (runOps cfg id db ops).row.confirmationCodeWrongAttemptsCount) ∧
    (∀ (ops : List Op) (now : Int) (code : String),
      (verifySignIn cfg now (runOps cfg id db ops) (runOps cfg id db ops).row id
        code).isOk = false) := by
  refine ⟨?_, ?_, ?_, ?_⟩
  · intro now code hb
    exact verifySignIn_activeBlock cfg now db db.row id code b hCount hBlocked hAfter hb
  · intro now code hb hd
    exact verifySignIn_activeBlock cfg now db db.row id code b hCount hBlocked hAfter (by omega)
  · intro ops
    exact le_trans hCount (runOps_count_mono cfg id ops db)
  · intro ops now code
    exact verifySignIn_not_ok_over_budget cfg now _ _ id code
      (le_trans hCount (runOps_count_mono cfg id ops db))

/-- **C10 witness**: the blocked fixture row at `now = 100` (its block of 50
is already past) presented with the correct code is still rejected with
`AttemptsExceeded`, and after the empty operation sequence verification is
still not successful. -/
theorem blocked_record_never_recovers_witness :
    verifySignIn exCfg 100 exDbBlocked exDbBlocked.row exId "c1" =
      .errs [AuthErr.confirmationCodeAttemptsExceeded] exDbBlocked ∧
    (verifySignIn exCfg 100 (runOps exCfg exId exDbBlocked [])
      (runOps exCfg exId exDbBlocked []).row exId "c1").isOk = false := by
  have h := blocked_record_never_recovers exCfg exId exDbBlocked 50
    (by decide) (by decide) (by decide)
  exact ⟨h.2.1 100 "c1" (by decide) (by decide), h.2.2.2 [] 100 "c1"⟩

theorem verifySignIn_ok_self (cfg : Config) (now : Int) (db : Db) (els : EmailLinkSignIn)
    (id : LoginID)
    (hCount : els.confirmationCodeWrongAttemptsCount < cfg.maxWrongAttemptsCount) :
    verifySignIn cfg now db els id els.confirmationCode = .ok db := by
  have h1 : ¬ cfg.maxWrongAttemptsCount ≤ els.confirmationCodeWrongAttemptsCount := by omega
  simp only [verifySignIn, if_neg h1,
    if_neg (fun h : els.confirmationCode ≠ els.confirmationCode => h rfl)]

/-- **C3 counterexample**: the claim says `Status` fails with
`NoPendingLoginSession` on a terminal-marker record for any presented code.
On the consumed fixture row (code rewritten to `"u1" = userID`, otp still
`"o1"`), presenting the code `"u1"` makes `Status` fail with
`StatusNotVerified` instead. -/
theorem status_terminal_counterexample :
    exDbTerminal.row.userID = some "u1" ∧
    exDbTerminal.row.confirmationCode = "u1" ∧
    status exDbTerminal exId "u1" = .errs AuthErr.statusNotVerified exDbTerminal ∧
    AuthErr.statusNotVerified ≠ AuthErr.noPendingLoginSession := by
  decide

/-- **C3 (amended)**: on a record whose `confirmationCode` equals the
resolved `userID`, `SignIn` always fails with `NoPendingLoginSession`, and
`Status` never issues tokens: it fails with `NoPendingLoginSession` except
when the presented code equals the terminal marker while the stored otp
differs from the `userID`, in which case it fails with
`StatusNotVerified`. -/
theorem terminal_marker_rejected (db : Db) (u : String)
    (hUser : db.row.userID = some u)
    (hCode : db.row.confirmationCode = u) :
    (∀ cfg o now id oldEmail code,
      signIn cfg o now db db.row id oldEmail code =
        .errs [AuthErr.noPendingLoginSession] db) ∧
    (∀ id code,
      (∀ ec d, status db id code ≠ .tokens ec d) ∧
      (status db id code = .errs AuthErr.noPendingLoginSession db ∨
        (status db id code = .errs AuthErr.statusNotVerified db ∧ db.row.otp ≠ u))) := by
  have hg : db.row.userID = some db.row.confirmationCode := by rw [hCode]; exact hUser
  constructor
  · intro cfg o now id oldEmail code
    simp only [signIn, if_pos hg]
  · intro id code
    by_cases hget : db.row.email = id.email ∧ db.row.deviceUniqueID = id.deviceUniqueID ∧
        db.row.confirmationCode = code
    · by_cases hotp : db.row.otp ≠ u
      · simp only [status, getConfirmedEmailLinkSignIn, if_pos hget, hUser, if_pos hotp]
        exact ⟨fun ec d h => StatusResult.noConfusion h, Or.inr ⟨trivial, hotp⟩⟩
      · simp only [status, getConfirmedEmailLinkSignIn, if_pos hget, hUser, if_neg hotp,
          if_pos hCode]
        exact ⟨fun ec d h => StatusResult.noConfusion h, Or.inl trivial⟩
    · simp only [status, getConfirmedEmailLinkSignIn, if_neg hget]
      exact ⟨fun ec d h => StatusResult.noConfusion h, Or.inl trivial⟩

/-- **C3 (amended) witness**: on the consumed fixture row, `signIn` with
the original code `"c1"` fails with `NoPendingLoginSession`, and `Status`
presented with `"c1"` fails without tokens. -/
theorem terminal_marker_rejected_witness :
    signIn exCfg exOracleFail 100 exDbTerminal exDbTerminal.row exId "" "c1" =
      .errs [AuthErr.noPendingLoginSession] exDbTerminal ∧
    (status exDbTerminal exId "c1" = .errs AuthErr.noPendingLoginSession exDbTerminal ∨
      (status exDbTerminal exId "c1" = .errs AuthErr.statusNotVerified exDbTerminal ∧
        exDbTerminal.row.otp ≠ "u1")) := by
  have h := terminal_marker_rejected exDbTerminal "u1" (by decide) (by decide)
  exact ⟨h.1 exCfg exOracleFail 100 exId "" "c1", (h.2 exId "c1").2⟩

/-- **C7**: when the flow carries an `oldEmail` and finalize fails, `signIn`
returns a single aggregated error whose causes are, in order: the
email-change reversion result, the identity-provider reversion result
(each present exactly when that reversion itself failed — a nil error is
skipped by the aggregation), and always the original finalize error; in
particular, when both reversions fail the caller sees all three causes. -/
theorem signIn_migration_finalize_failure (cfg : Config) (o : EmailModOracle) (now : Int)
    (db : Db) (els : EmailLinkSignIn) (id : LoginID) (oldEmail u : String)
    (hUser : els.userID = some u)
    (hNotTerminal : els.confirmationCode ≠ u)
    (hCount : els.confirmationCodeWrongAttemptsCount < cfg.maxWrongAttemptsCount)
    (hOld : oldEmail ≠ "")
    (hHandle : o.handleEmailModification = none)
    (hRace : db.row.issuedTokenSeq ≠ els.issuedTokenSeq) :
    signIn cfg o now db els id oldEmail els.confirmationCode =
      .errs (([o.resetEmailModification, o.resetFirebaseEmailModification].filterMap
          (fun e => e)) ++ [AuthErr.noConfirmationRequired])
        { db with accountMetadata :=
            metadataUpsert db.accountMetadata u (buildMdToUpdate u els.metadata) } ∧
    (∀ e1 e2, o.resetEmailModification = some e1 →
      o.resetFirebaseEmailModification = some e2 →
      ([o.resetEmailModification, o.resetFirebaseEmailModification].filterMap (fun e => e)) ++
        [AuthErr.noConfirmationRequired] = [e1, e2, AuthErr.noConfirmationRequired]) := by
  have hg : ¬ (els.userID = some els.confirmationCode) := by
    rw [hUser]
    intro h
    exact hNotTerminal (Option.some.inj h).symm
  have hv := verifySignIn_ok_self cfg now db els id hCount
  have hfin := finishAuthProcess_unmatched db now id u els.issuedTokenSeq
    (decide (oldEmail ≠ "")) els.metadata (fun hc => hRace hc.2.2)
  constructor
  · simp only [signIn, if_neg hg, hv, if_pos (Or.inl hOld : oldEmail ≠ "" ∨ _), hHandle,
      signInFinish, hUser, hfin, if_pos hOld]
    rw [if_neg (fun h : some u = some els.confirmationCode =>
      hNotTerminal (Option.some.inj h).symm)]
  · intro e1 e2 h1 h2
    rw [h1, h2]
    rfl

/-- **C7 witness**: on a concrete race (store row at seq 7, snapshot at 5)
with both reversions failing, the caller sees exactly the three causes. -/
theorem signIn_migration_finalize_failure_witness :
    signIn exCfg exOracleFail 100 exDbRace exRow exId "old@x.com" "c1" =
      .errs [AuthErr.storage "revert-email", AuthErr.storage "revert-firebase",
          AuthErr.noConfirmationRequired]
        { exDbRace with accountMetadata :=
            metadataUpsert exDbRace.accountMetadata "u1" (buildMdToUpdate "u1" exRow.metadata) } := by
  have h := signIn_migration_finalize_failure exCfg exOracleFail 100 exDbRace exRow exId
    "old@x.com" "u1" (by decide) (by decide) (by decide) (by decide) (by decide) (by decide)
  exact h.1

/-- **C9**: `signIn` dereferences `*els.UserID` unconditionally at the
`finishAuthProcess` call site, so a record with a null `userID` (a nullable
column in the schema) that still holds a matching confirmation code and is
not over budget drives `signIn` into the nil-dereference panic. -/
theorem signIn_nil_userID_panics (cfg : Config) (o : EmailModOracle) (now : Int)
    (db : Db) (els : EmailLinkSignIn) (id : LoginID)
    (hUser : els.userID = none)
    (hCount : els.confirmationCodeWrongAttemptsCount < cfg.maxWrongAttemptsCount)
    (hMig : els.phoneNumberToEmailMigrationUserID = none) :
    signIn cfg o now db els id "" els.confirmationCode = .panicked .nilUserID db := by
  have hg : ¬ (els.userID = some els.confirmationCode) := by
    rw [hUser]
    exact fun h => Option.noConfusion h
  have hv := verifySignIn_ok_self cfg now db els id hCount
  have hmig : ¬ (("" : String) ≠ "" ∨ els.phoneNumberToEmailMigrationUserID.getD "" ≠ "") := by
    rw [hMig]
    intro h
    rcases h with h | h
    · exact h rfl
    · exact h rfl
  simp only [signIn, if_neg hg, hv, if_neg hmig, signInFinish, hUser]
  rw [if_neg (fun h : (none : Option String) = some els.confirmationCode =>
    Option.noConfusion h)]

/-- **C9 witness**: the unresolved fixture row (null `userID`, live code
`"c1"`, zero wrong attempts) panics inside `signIn`. -/
theorem signIn_nil_userID_panics_witness :
    signIn exCfg exOracleFail 100 exDbNoUser exRowNoUser exId "" exRowNoUser.confirmationCode =
      .panicked .nilUserID exDbNoUser :=
  signIn_nil_userID_panics exCfg exOracleFail 100 exDbNoUser exRowNoUser exId
    (by decide) (by decide) (by decide)

theorem ipApply_bounds (a : Int) (op : IPOp) (h0 : 0 ≤ a) (h10 : a ≤ 10) :
    0 ≤ ipApply a op ∧ ipApply a op ≤ 10 := by
  cases op with
  | admitOp =>
    by_cases h : a + 1 ≤ 10
    · simp only [ipApply, ipAdmitResult, if_pos h]
      omega
    · simp only [ipApply, ipAdmitResult, if_neg h]
      omega
  | refund =>
    refine ⟨le_max_right _ _, max_le (by omega) (by omega)⟩

theorem ipRun_bounds_aux (ops : List IPOp) :
    ∀ a : Int, 0 ≤ a → a ≤ 10 → 0 ≤ ipRun a ops ∧ ipRun a ops ≤ 10 := by
  induction ops with
  | nil => exact fun a h0 h10 => ⟨h0, h10⟩
  | cons op ops ih =>
    intro a h0 h10
    have h := ipApply_bounds a op h0 h10
    exact ih (ipApply a op) h.1 h.2

/-- **C6**: starting from the DDL default 0, after any sequence of admit
(increment, failed by the check constraint beyond 10) and refund
(`GREATEST(login_attempts - 1, 0)`) operations, the stored `login_attempts`
stays within 0..10 inclusive. -/
theorem ipLoginAttempts_bounded (ops : List IPOp) :
    0 ≤ ipRun 0 ops ∧ ipRun 0 ops ≤ 10 :=
  ipRun_bounds_aux ops 0 (by decide) (by decide)

end Eskimo
